import Mathlib

/-!
Shallow embedding of parts of the SFML windowing/audio backend
(`src/SFML/Window/Unix/WindowImplX11.cpp`, `src/SFML/Window/MonitorImpl.hpp`,
and the `Music` audio streaming adapter), together with theorems settling
the specification claims about them.

External X11 / XRandR / audio-codec library calls are modelled as
environment records holding each call's reply; the embedded functions
mirror the control flow of the C++ source over those replies.
-/

namespace SFML

/-! ## X11 event model (WindowImplX11::processEvents) -/

/-- The fields of an `XKeyEvent` that the key-repeat workaround inspects. -/
structure XKeyEvent where
  keycode : Nat
  time : Nat
  deriving DecidableEq, Repr

/-- An X event as seen by `WindowImplX11::processEvents`: a key press, a key
release, or any other event (identified by a tag so order is observable). -/
inductive XEvent where
  | keyPress (k : XKeyEvent)
  | keyRelease (k : XKeyEvent)
  | other (id : Nat)
  deriving DecidableEq, Repr

/-- The key-repeat pair test of `WindowImplX11::processEvents`: the current
event is a `KeyRelease`, the next event is a `KeyPress` with the same keycode,
and its timestamp lies in `[release.time, release.time + 1]`. -/
def isRepeatPair (e n : XEvent) : Bool :=
  match e, n with
  | .keyRelease r, .keyPress p =>
      p.keycode == r.keycode && decide (r.time ≤ p.time) && decide (p.time ≤ r.time + 1)
  | _, _ => false

/-- `WindowImplX11::processEvents` over the queue of events matching this
window, returning the list of events handed to `processEvent` in order.
A `KeyRelease` immediately followed by a matching repeat `KeyPress` is
collapsed: only the press is forwarded when `keyRepeat` is set, neither
otherwise; a `KeyRelease` whose successor is not a repeat press is forwarded
and the successor is examined in turn. -/
def processEvents (keyRepeat : Bool) : List XEvent → List XEvent
  | [] => []
  | [e] => [e]
  | e :: n :: rest2 =>
    if isRepeatPair e n then
      if keyRepeat then n :: processEvents keyRepeat rest2
      else processEvents keyRepeat rest2
    else e :: processEvents keyRepeat (n :: rest2)
  termination_by l => l.length
  decreasing_by
    all_goals simp
    all_goals omega

/-! ## iOS monitor model (MonitorImplUIKit::getFullscreenModes) -/

/-- Two-component unsigned vector, as `sf::Vector2u`. -/
structure Vector2u where
  x : Nat
  y : Nat
  deriving DecidableEq, Repr

/-- `sf::VideoMode`: a size in pixels and a color depth. -/
structure VideoMode where
  size : Vector2u
  bitsPerPixel : Nat
  deriving DecidableEq, Repr

namespace MonitorImplUIKit

/-- `MonitorImplUIKit::getFullscreenModes`: returns the desktop mode and the
same mode with width and height swapped. -/
def getFullscreenModes (desktop : VideoMode) : List VideoMode :=
  [desktop, ⟨⟨desktop.size.y, desktop.size.x⟩, desktop.bitsPerPixel⟩]

end MonitorImplUIKit

end SFML

namespace SFML

/-! ## XRandR model (setVideoMode / resetVideoMode) -/

/-- The fields of an `XRRModeInfo` that `setVideoMode` inspects. -/
structure RRModeInfo where
  id : Nat
  width : Nat
  height : Nat
  deriving DecidableEq, Repr

/-- The fields of `XRRScreenResources` the code uses: the list of modes and
the list of outputs. -/
structure XRRScreenResources where
  modes : List RRModeInfo
  outputs : List Nat
  deriving DecidableEq, Repr

/-- The fields of `XRROutputInfo` the code uses: whether the output's
connection is `RR_Disconnected`, and its crtc. -/
structure XRROutputInfo where
  disconnected : Bool
  crtc : Nat
  deriving DecidableEq, Repr

/-- The fields of `XRRCrtcInfo` the code uses: the current mode and whether
the rotation is `RR_Rotate_90` or `RR_Rotate_270`. -/
structure XRRCrtcInfo where
  mode : Nat
  rotated : Bool
  deriving DecidableEq, Repr

/-- Replies of the X server to the XRandR calls made by `setVideoMode` and
`resetVideoMode`; a `none`/`false` reply is the corresponding failure. -/
structure XRandREnv where
  xrandrPresent : Bool
  screenRes : Option XRRScreenResources
  outputPrimary : Nat
  outputInfo : Nat → Option XRROutputInfo
  crtcInfo : Nat → Option XRRCrtcInfo

/-- `WindowImplX11::getOutputPrimary`: the primary output if the server
reports one, otherwise the first output of the screen resources (the C++
indexes `res->outputs[0]` unconditionally; an empty output list is modelled
as output 0). -/
def getOutputPrimary (env : XRandREnv) (res : XRRScreenResources) : Nat :=
  if env.outputPrimary == 0 then res.outputs.headD 0 else env.outputPrimary

/-- The mode-search loop of `setVideoMode`: the first mode whose size (with
width and height swapped when the crtc is rotated by 90 or 270 degrees)
equals the requested size. -/
def findRRMode (rotated : Bool) (size : Vector2u) : List RRModeInfo → Option Nat
  | [] => none
  | m :: rest =>
    let w := if rotated then m.height else m.width
    let h := if rotated then m.width else m.height
    if w == size.x && h == size.y then some m.id else findRRMode rotated size rest

/-- The mutable state touched by `setVideoMode` / `resetVideoMode`: the
global `fullscreenWindow` pointer, the mode currently configured on the
display, and this window's saved `m_oldVideoMode` / `m_oldRRCrtc`. -/
structure FullscreenState where
  fullscreenWindow : Option Nat
  crtcMode : Nat
  oldVideoMode : Nat
  oldRRCrtc : Nat
  deriving DecidableEq, Repr

/-- `WindowImplX11::setVideoMode` for window `me`: mirrors the early returns
of the C++ code and, on full success, switches the crtc to the matching
mode, saves the previous mode and crtc, and records `me` as the fullscreen
window. -/
def setVideoMode (env : XRandREnv) (me : Nat) (mode desktop : VideoMode)
    (s : FullscreenState) : FullscreenState :=
  if mode == desktop then s
  else if !env.xrandrPresent then s
  else
    match env.screenRes with
    | none => s
    | some res =>
      match env.outputInfo (getOutputPrimary env res) with
      | none => s
      | some oi =>
        if oi.disconnected then s
        else
          match env.crtcInfo oi.crtc with
          | none => s
          | some ci =>
            match findRRMode ci.rotated mode.size res.modes with
            | none => s
            | some xRandMode =>
              { fullscreenWindow := some me
                crtcMode := xRandMode
                oldVideoMode := ci.mode
                oldRRCrtc := oi.crtc }

/-- The success condition of `setVideoMode`, read off its early returns: the
requested mode differs from the desktop mode, XRandR is present, screen
resources and a connected output's info and crtc info are obtained, and a
mode of the requested size exists. -/
def setVideoModeSucceeds (env : XRandREnv) (mode desktop : VideoMode) : Bool :=
  mode != desktop && env.xrandrPresent &&
    (match env.screenRes with
     | none => false
     | some res =>
       match env.outputInfo (getOutputPrimary env res) with
       | none => false
       | some oi =>
         !oi.disconnected &&
           (match env.crtcInfo oi.crtc with
            | none => false
            | some ci => (findRRMode ci.rotated mode.size res.modes).isSome))

/-- `WindowImplX11::resetVideoMode`: acts only when this window is the
recorded fullscreen window; when XRandR is present it restores the saved
mode but returns early (leaving the record in place) if screen resources or
crtc info cannot be obtained; the record is cleared after the restore block,
also when XRandR is absent. -/
def resetVideoMode (env : XRandREnv) (me : Nat) (s : FullscreenState) : FullscreenState :=
  if s.fullscreenWindow == some me then
    if env.xrandrPresent then
      match env.screenRes with
      | none => s
      | some _res =>
        match env.crtcInfo s.oldRRCrtc with
        | none => s
        | some _ci => { s with fullscreenWindow := none, crtcMode := s.oldVideoMode }
    else { s with fullscreenWindow := none }
  else s

/-! ## Window position model (WindowImplX11::getPosition) -/

/-- `wmAbsPosGood`: the window managers whose absolute window position is
trusted directly. -/
def wmAbsPosGood : List String := ["Enlightenment", "FVWM", "i3"]

/-- Replies of the X server used by `getPosition`: whether EWMH is supported,
the window manager's name, the `_NET_FRAME_EXTENTS` atom and property (a
successful 4-cardinal read giving left and top extents), the absolute
position of the window relative to the root, and the relative-to-root
position of the furthest ancestor below the root. -/
structure PositionEnv where
  ewmh : Bool
  windowManagerName : String
  frameExtentsAtom : Bool
  frameExtentsProp : Option (Int × Int)
  absPos : Int × Int
  ancestorPos : Int × Int

/-- `isWMAbsolutePositionGood`: EWMH is supported and the window manager's
name is in `wmAbsPosGood`. -/
def isWMAbsolutePositionGood (env : PositionEnv) : Bool :=
  env.ewmh && wmAbsPosGood.contains env.windowManagerName

/-- `getEWMHFrameExtents`: fails unless EWMH is supported and the
`_NET_FRAME_EXTENTS` atom exists; otherwise returns the property read. -/
def getEWMHFrameExtents (env : PositionEnv) : Option (Int × Int) :=
  if !env.ewmh then none
  else if !env.frameExtentsAtom then none
  else env.frameExtentsProp

/-- `WindowImplX11::getPosition`: the three positioning strategies of the
C++ code, tried in order. -/
def getPosition (env : PositionEnv) : Int × Int :=
  if isWMAbsolutePositionGood env then env.absPos
  else
    match getEWMHFrameExtents env with
    | some (l, t) => (env.absPos.1 - l, env.absPos.2 - t)
    | none => env.ancestorPos

/-! ## Focus request model (WindowImplX11::requestFocus) -/

/-- Replies of the X server used by `requestFocus`: whether some window in
the global SFML window list currently has input focus, and the result of
`XGetWindowAttributes` on this window (`none` on failure, otherwise whether
the map state is `IsViewable`). -/
structure FocusEnv where
  anySfmlWindowFocused : Bool
  attributes : Option Bool

/-- The externally visible action `requestFocus` settles on. -/
inductive FocusEffect where
  | noEffect
  | grabFocus
  | urgencyHint
  deriving DecidableEq, Repr

/-- `WindowImplX11::requestFocus`: returns doing nothing when the window
attributes cannot be read; grabs focus when an SFML window has focus and
this window is viewable; otherwise sets the `XUrgencyHint` WM hint. -/
def requestFocus (env : FocusEnv) : FocusEffect :=
  match env.attributes with
  | none => .noEffect
  | some viewable =>
    if env.anySfmlWindowFocused && viewable then .grabFocus else .urgencyHint

/-! ## Drag-and-drop model (XdndEnter / XdndDrop handling) -/

/-- The atoms the Xdnd handlers intern, as nonzero numbers (`0` is `None`). -/
structure DndAtoms where
  uriList : Nat
  actionCopy : Nat
  xdndFinished : Nat
  deriving DecidableEq, Repr

/-- `WindowImplX11::canAcceptFileType`: membership in the array of
acceptable file types, which holds only the `text/uri-list` atom. -/
def canAcceptFileType (atoms : DndAtoms) (fileType : Nat) : Bool :=
  ([atoms.uriList] : List Nat).any fun a => a == fileType

/-- The type-scanning loops of the `XdndEnter` handler: the first type
accepted by `canAcceptFileType`, or `None` (0). -/
def firstAcceptedFileType (atoms : DndAtoms) : List Nat → Nat
  | [] => 0
  | t :: rest =>
    if canAcceptFileType atoms t then t else firstAcceptedFileType atoms rest

/-- The drag-and-drop fields of `WindowImplX11`: `m_dropSource` and
`m_acceptedFileType` (0 is `None`). -/
structure DndState where
  dropSource : Nat
  acceptedFileType : Nat
  deriving DecidableEq, Repr

/-- The `XdndEnter` branch of `processEvent`: records the drop source,
clears the accepted type, then scans either the `XdndTypeList` property
(when `data.l[1] & 1`, and only if the property read succeeds) or the three
inline types `data.l[2..4]` for the first supported type. -/
def processXdndEnter (atoms : DndAtoms) (source : Nat) (useTypeList : Bool)
    (typeListProp : Option (List Nat)) (inlineTypes : List Nat) : DndState :=
  let types := if useTypeList then typeListProp.getD [] else inlineTypes
  ⟨source, firstAcceptedFileType atoms types⟩

/-- The fields of the `XdndFinished` client message the handler sends. -/
structure XdndFinishedMessage where
  dest : Nat
  messageType : Nat
  ourWindow : Nat
  accepted : Nat
  action : Nat
  deriving DecidableEq, Repr

/-- The `XdndDrop` branch of `processEvent` for window `me`: builds and sends
one `XdndFinished` message to the drop source (accepted flag 1 and action
`XdndActionCopy` when a supported type was negotiated, flag 0 and action
`None` otherwise), then resets the drop source and accepted type. -/
def processXdndDrop (atoms : DndAtoms) (me : Nat) (s : DndState) :
    DndState × List XdndFinishedMessage :=
  let msg : XdndFinishedMessage :=
    { dest := s.dropSource
      messageType := atoms.xdndFinished
      ourWindow := me
      accepted := if s.acceptedFileType != 0 then 1 else 0
      action := if s.acceptedFileType != 0 then atoms.actionCopy else 0 }
  (⟨0, 0⟩, [msg])

/-! ## EWMH detection model (ewmhSupported) -/

/-- Replies of the X server used by `ewmhSupported`: the two atoms (0 when
the atom does not exist, since `getAtom` is called with `onlyIfExists`),
and the `_NET_SUPPORTING_WM_CHECK` reads — on the root window and on an
arbitrary window — each `some w` only when the read succeeds with type
`XA_WINDOW` and exactly one item. -/
structure EwmhEnv where
  netSupportingWmCheckAtom : Nat
  netSupportedAtom : Nat
  rootWindowProp : Option Nat
  childWindowProp : Nat → Option Nat

/-- The uncached body of `ewmhSupported`: both atoms exist, the root
property names a nonzero window, that window's own property names a nonzero
window, and the two windows coincide. -/
def ewmhCompute (env : EwmhEnv) : Bool :=
  if env.netSupportingWmCheckAtom == 0 || env.netSupportedAtom == 0 then false
  else
    match env.rootWindowProp with
    | none => false
    | some rootWindow =>
      if rootWindow == 0 then false
      else
        match env.childWindowProp rootWindow with
        | none => false
        | some childWindow =>
          if childWindow == 0 then false
          else rootWindow == childWindow

/-- The two function-local `static bool`s of `ewmhSupported`. -/
structure EwmhCache where
  checked : Bool
  supported : Bool
  deriving DecidableEq, Repr

/-- `ewmhSupported`: returns the cached answer when already checked,
otherwise computes it once and caches it. -/
def ewmhSupported (env : EwmhEnv) (c : EwmhCache) : Bool × EwmhCache :=
  if c.checked then (c.supported, c)
  else (ewmhCompute env, ⟨true, ewmhCompute env⟩)

/-! ## Music streaming model (Music::onGetData / Music::initialize) -/

/-- The sound-file fields `Music` reads through `m_file`: sample rate,
channel count, total sample count and current sample offset. -/
structure InputSoundFile where
  sampleRate : Nat
  channelCount : Nat
  sampleCount : Nat
  sampleOffset : Nat
  deriving DecidableEq, Repr

/-- Modelled from the spec: `InputSoundFile::read` is not among the sources;
per the spec these audio classes are thin adapters exposing a pull-based
"read next chunk" interface, so a read of up to `maxCount` samples returns
the number of samples actually read — bounded by the request and by the
samples remaining — and advances the offset by that number. -/
def InputSoundFile.read (f : InputSoundFile) (maxCount : Nat) : Nat × InputSoundFile :=
  let n := min maxCount (f.sampleCount - f.sampleOffset)
  (n, { f with sampleOffset := f.sampleOffset + n })

/-- The `Music` state relevant to streaming: the open sound file and the
size of the internal sample buffer `m_samples`. -/
structure MusicState where
  file : InputSoundFile
  bufferSize : Nat
  deriving DecidableEq, Repr

/-- `Music::initialize`: resizes the internal buffer to hold one second of
audio (`sampleRate * channelCount` samples). -/
def Music.initialize (file : InputSoundFile) : MusicState :=
  ⟨file, file.sampleRate * file.channelCount⟩

/-- The chunk filled by `onGetData`: the sample count, and whether the
sample pointer was set to the internal buffer. -/
structure Chunk where
  sampleCount : Nat
  samplesFromBuffer : Bool
  deriving DecidableEq, Repr

/-- `Music::onGetData`: points the chunk at the internal buffer, reads up to
a buffer's worth of samples, and keeps streaming iff some samples were read
and the offset is still strictly below the total sample count. -/
def Music.onGetData (m : MusicState) : Bool × Chunk × MusicState :=
  let r := m.file.read m.bufferSize
  (r.1 != 0 && decide (r.2.sampleOffset < r.2.sampleCount),
    ⟨r.1, true⟩, ⟨r.2, m.bufferSize⟩)

/-! ## Mouse cursor grab model (WindowImplX11::setMouseCursorGrabbed) -/

/-- `maxTrialsCount`: the number of times a pointer grab is attempted. -/
def maxTrialsCount : Nat := 5

/-- The retry loop of `setMouseCursorGrabbed`: attempt grabs from `trial`
while fuel remains, stopping at the first success; returns the number of
attempts made and whether one succeeded. -/
def grabPointerLoop (results : Nat → Bool) : Nat → Nat → Nat × Bool
  | _, 0 => (0, false)
  | trial, fuel + 1 =>
    if results trial then (1, true)
    else
      let r := grabPointerLoop results (trial + 1) fuel
      (r.1 + 1, r.2)

/-- The `WindowImplX11` fields `setMouseCursorGrabbed` touches:
`m_fullscreen` and `m_cursorGrabbed`. -/
structure CursorGrabState where
  fullscreen : Bool
  cursorGrabbed : Bool
  deriving DecidableEq, Repr

/-- The externally visible effect of `setMouseCursorGrabbed`. -/
inductive CursorGrabEffect where
  | noEffect
  | grabAttempts (n : Nat)
  | ungrab
  deriving DecidableEq, Repr

/-- `WindowImplX11::setMouseCursorGrabbed`: no effect in fullscreen mode or
when the requested state equals the current one; when grabbing, runs the
retry loop (`XGrabPointer` up to `maxTrialsCount` times) and records its
outcome in `m_cursorGrabbed`; when releasing, ungrabs the pointer and clears
the flag. -/
def setMouseCursorGrabbed (results : Nat → Bool) (s : CursorGrabState)
    (grabbed : Bool) : CursorGrabState × CursorGrabEffect :=
  if s.fullscreen || (s.cursorGrabbed == grabbed) then (s, .noEffect)
  else if grabbed then
    let r := grabPointerLoop results 0 maxTrialsCount
    ({ s with cursorGrabbed := r.2 }, .grabAttempts r.1)
  else ({ s with cursorGrabbed := false }, .ungrab)

/-! ## Theorems for C1 and C9 -/

/-- C1: a queued `KeyRelease` immediately followed by a `KeyPress` with the same
keycode at most 1 ms later is forwarded as only the `KeyPress` when key repeat
is enabled and as neither event when it is disabled, the rest of the queue
being processed as before; any event not heading such a pair is forwarded to
`processEvent` in queue order. -/
theorem processEvents_keyRepeatFilter (keyRepeat : Bool) :
    (∀ rel press rest, isRepeatPair rel press = true →
      processEvents keyRepeat (rel :: press :: rest) =
        (if keyRepeat then [press] else []) ++ processEvents keyRepeat rest) ∧
    (∀ e rest, (∀ n t, rest = n :: t → isRepeatPair e n = false) →
      processEvents keyRepeat (e :: rest) = e :: processEvents keyRepeat rest) := by
  constructor
  · intro rel press rest hpair
    simp [processEvents, hpair]
    cases keyRepeat <;> simp
  · intro e rest hnot
    cases rest with
    | nil => simp [processEvents]
    | cons n t =>
      have h := hnot n t rfl
      simp [processEvents, h]

/-- Witness for C1: on the concrete queue
`[KeyRelease k t, KeyPress k (t+1), other]` with key repeat enabled the press
and the other event are forwarded, and a lone other event passes through. -/
theorem processEvents_keyRepeatFilter_witness :
    processEvents true
        [XEvent.keyRelease ⟨38, 100⟩, XEvent.keyPress ⟨38, 101⟩, XEvent.other 7] =
      [XEvent.keyPress ⟨38, 101⟩, XEvent.other 7] ∧
    processEvents true [XEvent.other 7] = [XEvent.other 7] := by
  constructor
  · have h := (processEvents_keyRepeatFilter true).1
      (XEvent.keyRelease ⟨38, 100⟩) (XEvent.keyPress ⟨38, 101⟩) [XEvent.other 7]
      (by decide)
    rw [h]
    simp [processEvents]
  · have h := (processEvents_keyRepeatFilter true).2 (XEvent.other 7) []
      (by intro n t ht; cases ht)
    rw [h]
    simp [processEvents]

/-- C9: `MonitorImplUIKit::getFullscreenModes` returns exactly two modes: the
desktop mode first, then the same mode with width and height swapped at the
same bits per pixel. -/
theorem getFullscreenModes_twoModes (desktop : VideoMode) :
    MonitorImplUIKit.getFullscreenModes desktop =
      [desktop, ⟨⟨desktop.size.y, desktop.size.x⟩, desktop.bitsPerPixel⟩] := by
  rfl

/-! ## Theorems for C2 and C6 -/

/-- C2: `setVideoMode` leaves the whole state (display mode and
fullscreen-window record) unchanged whenever any of its conditions fails;
when all conditions hold it records this window as the fullscreen window;
and the display mode can only change when all conditions hold. -/
theorem setVideoMode_gracefulDegradation (env : XRandREnv) (me : Nat)
    (mode desktop : VideoMode) (s : FullscreenState) :
    (setVideoModeSucceeds env mode desktop = false →
      setVideoMode env me mode desktop s = s) ∧
    (setVideoModeSucceeds env mode desktop = true →
      (setVideoMode env me mode desktop s).fullscreenWindow = some me) ∧
    ((setVideoMode env me mode desktop s).crtcMode ≠ s.crtcMode →
      setVideoModeSucceeds env mode desktop = true) := by
  by_cases hmd : mode = desktop
  · subst hmd
    simp [setVideoMode, setVideoModeSucceeds]
  · cases hp : env.xrandrPresent with
    | false => simp [setVideoMode, setVideoModeSucceeds, hp, hmd]
    | true =>
      cases hres : env.screenRes with
      | none => simp [setVideoMode, setVideoModeSucceeds, hp, hres, hmd]
      | some res =>
        cases hoi : env.outputInfo (getOutputPrimary env res) with
        | none => simp [setVideoMode, setVideoModeSucceeds, hp, hres, hoi, hmd]
        | some oi =>
          cases hd : oi.disconnected with
          | true => simp [setVideoMode, setVideoModeSucceeds, hp, hres, hoi, hd, hmd]
          | false =>
            cases hci : env.crtcInfo oi.crtc with
            | none => simp [setVideoMode, setVideoModeSucceeds, hp, hres, hoi, hd, hci, hmd]
            | some ci =>
              cases hfm : findRRMode ci.rotated mode.size res.modes with
              | none =>
                simp [setVideoMode, setVideoModeSucceeds, hp, hres, hoi, hd, hci, hfm, hmd]
              | some m =>
                simp [setVideoMode, setVideoModeSucceeds, hp, hres, hoi, hd, hci, hfm, hmd]

/-- Witness for C2: with an environment lacking the XRandR extension,
`setVideoMode` is the identity on a concrete state. -/
theorem setVideoMode_gracefulDegradation_witness :
    setVideoMode ⟨false, none, 0, fun _ => none, fun _ => none⟩ 1
        ⟨⟨800, 600⟩, 32⟩ ⟨⟨1920, 1080⟩, 32⟩ ⟨none, 5, 0, 0⟩ = ⟨none, 5, 0, 0⟩ :=
  (setVideoMode_gracefulDegradation ⟨false, none, 0, fun _ => none, fun _ => none⟩ 1
      ⟨⟨800, 600⟩, 32⟩ ⟨⟨1920, 1080⟩, 32⟩ ⟨none, 5, 0, 0⟩).1 (by rfl)

/-- C6: `resetVideoMode` is idempotent; it leaves everything unchanged when
this window is not the recorded fullscreen window; and the display mode can
only change (to the saved mode) when this window is the recorded fullscreen
window. -/
theorem resetVideoMode_idempotent (env : XRandREnv) (me : Nat) (s : FullscreenState) :
    resetVideoMode env me (resetVideoMode env me s) = resetVideoMode env me s ∧
    (s.fullscreenWindow ≠ some me → resetVideoMode env me s = s) ∧
    ((resetVideoMode env me s).crtcMode ≠ s.crtcMode →
      s.fullscreenWindow = some me ∧
        (resetVideoMode env me s).crtcMode = s.oldVideoMode) := by
  unfold resetVideoMode
  by_cases hfw : s.fullscreenWindow == some me
  · simp only [hfw, if_true]
    cases hp : env.xrandrPresent with
    | false =>
      simp only [Bool.false_eq_true, if_false]
      constructor
      · simp
      · simp_all
    | true =>
      simp only [if_true]
      cases hres : env.screenRes with
      | none => simp_all
      | some res =>
        cases hci : env.crtcInfo s.oldRRCrtc with
        | none => simp_all
        | some ci =>
          constructor
          · simp
          · simp_all
  · simp_all

/-- Witness for C6: resetting twice from a concrete fullscreen state with a
working XRandR environment equals resetting once, and a state not recording
this window is untouched. -/
theorem resetVideoMode_idempotent_witness :
    (resetVideoMode ⟨true, some ⟨[], [1]⟩, 1, fun _ => none, fun _ => some ⟨9, false⟩⟩ 1
        (resetVideoMode ⟨true, some ⟨[], [1]⟩, 1, fun _ => none, fun _ => some ⟨9, false⟩⟩ 1
          ⟨some 1, 5, 3, 2⟩) =
      resetVideoMode ⟨true, some ⟨[], [1]⟩, 1, fun _ => none, fun _ => some ⟨9, false⟩⟩ 1
        ⟨some 1, 5, 3, 2⟩) ∧
    resetVideoMode ⟨true, some ⟨[], [1]⟩, 1, fun _ => none, fun _ => some ⟨9, false⟩⟩ 1
        ⟨some 2, 5, 3, 2⟩ =
      ⟨some 2, 5, 3, 2⟩ := by
  constructor
  · exact (resetVideoMode_idempotent
      ⟨true, some ⟨[], [1]⟩, 1, fun _ => none, fun _ => some ⟨9, false⟩⟩ 1
      ⟨some 1, 5, 3, 2⟩).1
  · exact (resetVideoMode_idempotent
      ⟨true, some ⟨[], [1]⟩, 1, fun _ => none, fun _ => some ⟨9, false⟩⟩ 1
      ⟨some 2, 5, 3, 2⟩).2.1 (by simp)

/-! ## Theorems for C3, C4, C5, C7 -/

/-- C3: `getPosition` uses exactly one of three strategies, in order: the raw
absolute position when EWMH is supported and the window manager is one of
Enlightenment, FVWM, i3; otherwise the absolute position minus the left and
top EWMH frame extents when those are available; otherwise the
relative-to-root position of the furthest ancestor below the root. -/
theorem getPosition_threeStrategies (env : PositionEnv) :
    (env.ewmh = true → wmAbsPosGood.contains env.windowManagerName = true →
      getPosition env = env.absPos) ∧
    (isWMAbsolutePositionGood env = false →
      ∀ l t, getEWMHFrameExtents env = some (l, t) →
        getPosition env = (env.absPos.1 - l, env.absPos.2 - t)) ∧
    (isWMAbsolutePositionGood env = false → getEWMHFrameExtents env = none →
      getPosition env = env.ancestorPos) := by
  refine ⟨fun he hn => ?_, fun hbad l t hfe => ?_, fun hbad hfe => ?_⟩
  · have hgood : isWMAbsolutePositionGood env = true := by
      rw [isWMAbsolutePositionGood, he, hn]
      rfl
    simp [getPosition, hgood]
  · simp [getPosition, hbad, hfe]
  · simp [getPosition, hbad, hfe]

/-- Witness for C3: under i3 with EWMH the absolute position (40, 30) is
returned unchanged. -/
theorem getPosition_threeStrategies_witness :
    getPosition ⟨true, "i3", true, some (5, 20), (40, 30), (0, 0)⟩ = (40, 30) :=
  (getPosition_threeStrategies ⟨true, "i3", true, some (5, 20), (40, 30), (0, 0)⟩).1
    rfl (by decide)

/-- C4: `requestFocus` grabs focus exactly when the window attributes could be
read, some SFML window has input focus, and this window is viewable; when the
attributes cannot be read it does nothing; in every other readable case it
sets the urgency hint instead. -/
theorem requestFocus_cases (env : FocusEnv) :
    (requestFocus env = .grabFocus ↔
      env.attributes = some true ∧ env.anySfmlWindowFocused = true) ∧
    (env.attributes = none → requestFocus env = .noEffect) ∧
    (∀ viewable, env.attributes = some viewable →
      (env.anySfmlWindowFocused && viewable) = false →
      requestFocus env = .urgencyHint) := by
  refine ⟨?_, fun h => ?_, fun viewable h hf => ?_⟩
  · cases hattr : env.attributes with
    | none => simp [requestFocus, hattr]
    | some viewable =>
      cases hfoc : env.anySfmlWindowFocused <;> cases viewable <;>
        simp [requestFocus, hattr, hfoc]
  · simp [requestFocus, h]
  · simp [requestFocus, h, hf]

/-- Witness for C4: with an unreadable attribute reply, `requestFocus` does
nothing; with a viewable window and a focused SFML window, it grabs focus. -/
theorem requestFocus_cases_witness :
    requestFocus ⟨true, none⟩ = .noEffect ∧
    requestFocus ⟨true, some true⟩ = .grabFocus := by
  constructor
  · exact (requestFocus_cases ⟨true, none⟩).2.1 rfl
  · exact (requestFocus_cases ⟨true, some true⟩).1.2 ⟨rfl, rfl⟩

/-- The `XdndEnter` scan accepts a type exactly when the only supported atom,
`text/uri-list`, occurs among the offered types (atoms of existing names are
nonzero). -/
theorem firstAcceptedFileType_ne_zero (atoms : DndAtoms) (h : atoms.uriList ≠ 0)
    (ts : List Nat) :
    firstAcceptedFileType atoms ts ≠ 0 ↔ atoms.uriList ∈ ts := by
  induction ts with
  | nil => simp [firstAcceptedFileType]
  | cons t rest ih =>
    by_cases ht : canAcceptFileType atoms t = true
    · have ht2 : atoms.uriList = t := by
        rw [canAcceptFileType] at ht
        simp only [List.any_cons, List.any_nil, Bool.or_false, beq_iff_eq] at ht
        exact ht
      subst ht2
      simp only [firstAcceptedFileType, ht, if_true, ne_eq, List.mem_cons]
      simp [h]
    · have htf : canAcceptFileType atoms t = false := by
        simpa using ht
      have ht2 : ¬atoms.uriList = t := by
        intro he
        rw [canAcceptFileType] at htf
        simp [he] at htf
      simp only [firstAcceptedFileType, htf, Bool.false_eq_true, if_false, ih,
        List.mem_cons]
      constructor
      · exact Or.inr
      · rintro (he | hm)
        · exact absurd he ht2
        · exact hm

/-- C5: handling `XdndDrop` sends exactly one `XdndFinished` message to the
drop source — accepted flag 1 with action `XdndActionCopy` when a supported
type was negotiated, flag 0 with action `None` otherwise — and resets the
stored drop source and accepted type; moreover `canAcceptFileType` accepts
only the `text/uri-list` atom, and the `XdndEnter` negotiation records a
supported type exactly when that atom is among the types the source offers. -/
theorem processXdndDrop_finished (atoms : DndAtoms) (me : Nat) (s : DndState) :
    (processXdndDrop atoms me s).2 =
      [{ dest := s.dropSource
         messageType := atoms.xdndFinished
         ourWindow := me
         accepted := if s.acceptedFileType ≠ 0 then 1 else 0
         action := if s.acceptedFileType ≠ 0 then atoms.actionCopy else 0 }] ∧
    (processXdndDrop atoms me s).1 = ⟨0, 0⟩ ∧
    (∀ ft, canAcceptFileType atoms ft = (ft == atoms.uriList)) ∧
    (atoms.uriList ≠ 0 →
      ∀ source useTypeList typeListProp inlineTypes,
        (processXdndEnter atoms source useTypeList typeListProp
            inlineTypes).acceptedFileType ≠ 0 ↔
          atoms.uriList ∈
            (if useTypeList then typeListProp.getD [] else inlineTypes)) := by
  refine ⟨?_, rfl, fun ft => ?_, fun h source useTypeList typeListProp inlineTypes => ?_⟩
  · simp only [processXdndDrop, bne_iff_ne, ne_eq]
  · simp [canAcceptFileType, eq_comm]
  · simp only [processXdndEnter]
    exact firstAcceptedFileType_ne_zero atoms h _

/-- Witness for C5: a drop after negotiating `text/uri-list` (atom 11 among
the inline types) sends one accepted `XdndFinished` message and clears the
drop state. -/
theorem processXdndDrop_finished_witness :
    processXdndDrop ⟨11, 12, 13⟩ 2 (processXdndEnter ⟨11, 12, 13⟩ 9 false none [10, 11, 0]) =
      (⟨0, 0⟩, [⟨9, 13, 2, 1, 12⟩]) ∧
    (processXdndEnter ⟨11, 12, 13⟩ 9 false none [10, 11, 0]).acceptedFileType ≠ 0 := by
  have h := processXdndDrop_finished ⟨11, 12, 13⟩ 2
    (processXdndEnter ⟨11, 12, 13⟩ 9 false none [10, 11, 0])
  have hacc := (h.2.2.2 (by decide) 9 false none [10, 11, 0]).2 (by decide)
  refine ⟨?_, hacc⟩
  have h1 := h.1
  have h2 := h.2.1
  have hsrc : (processXdndEnter ⟨11, 12, 13⟩ 9 false none [10, 11, 0]).dropSource = 9 := by
    decide
  rw [Prod.ext_iff]
  refine ⟨h2, ?_⟩
  rw [h1, hsrc]
  simp [hacc]

/-- Characterization of the uncached EWMH check: it succeeds exactly when both
atoms exist and the two `_NET_SUPPORTING_WM_CHECK` reads name the same
nonzero window. -/
theorem ewmhCompute_iff (env : EwmhEnv) :
    ewmhCompute env = true ↔
      (env.netSupportingWmCheckAtom ≠ 0 ∧ env.netSupportedAtom ≠ 0 ∧
        ∃ w, w ≠ 0 ∧ env.rootWindowProp = some w ∧ env.childWindowProp w = some w) := by
  by_cases ha1 : env.netSupportingWmCheckAtom = 0
  · have hval : ewmhCompute env = false := by
      unfold ewmhCompute
      simp [ha1]
    simp [hval, ha1]
  by_cases ha2 : env.netSupportedAtom = 0
  · have hval : ewmhCompute env = false := by
      unfold ewmhCompute
      simp [ha2]
    simp [hval, ha2]
  cases hr : env.rootWindowProp with
  | none =>
    have hval : ewmhCompute env = false := by
      unfold ewmhCompute
      simp [ha1, ha2, hr]
    rw [hval]
    simp only [Bool.false_eq_true, false_iff, not_and]
    intro _ _
    rintro ⟨w, _, hww, _⟩
    exact Option.noConfusion hww
  | some rootWindow =>
    by_cases hrz : rootWindow = 0
    · subst hrz
      have hval : ewmhCompute env = false := by
        unfold ewmhCompute
        simp [ha1, ha2, hr]
      rw [hval]
      simp only [Bool.false_eq_true, false_iff, not_and]
      intro _ _
      rintro ⟨w, hw0, hww, _⟩
      injection hww with hww
      exact hw0 hww.symm
    · cases hcw : env.childWindowProp rootWindow with
      | none =>
        have hval : ewmhCompute env = false := by
          unfold ewmhCompute
          simp [ha1, ha2, hr, hrz, hcw]
        rw [hval]
        simp only [Bool.false_eq_true, false_iff, not_and]
        intro _ _
        rintro ⟨w, _, hww, hcp⟩
        injection hww with hww
        subst hww
        rw [hcp] at hcw
        exact Option.noConfusion hcw
      | some childWindow =>
        by_cases hcz : childWindow = 0
        · subst hcz
          have hval : ewmhCompute env = false := by
            unfold ewmhCompute
            simp [ha1, ha2, hr, hrz, hcw]
          rw [hval]
          simp only [Bool.false_eq_true, false_iff, not_and]
          intro _ _
          rintro ⟨w, hw0, hww, hcp⟩
          injection hww with hww
          subst hww
          rw [hcp] at hcw
          injection hcw with hzero
          exact hw0 hzero
        · have hval : ewmhCompute env = (rootWindow == childWindow) := by
            unfold ewmhCompute
            simp [ha1, ha2, hr, hrz, hcw, hcz]
          rw [hval]
          constructor
          · intro hrc
            have heq : rootWindow = childWindow := by simpa using hrc
            refine ⟨ha1, ha2, rootWindow, hrz, rfl, ?_⟩
            rw [hcw, heq]
          · rintro ⟨_, _, w, _, hww, hcp⟩
            injection hww with hww
            subst hww
            rw [hcp] at hcw
            injection hcw with he
            simp [he]

/-- C7: a fresh `ewmhSupported` check succeeds exactly when both atoms exist
and the root's `_NET_SUPPORTING_WM_CHECK` property names a nonzero window
whose own property names that same window; once checked, every later call
returns the cached answer and leaves the cache alone, whatever the
environment has become. -/
theorem ewmhSupported_cachedCheck (env env2 : EwmhEnv) (c : EwmhCache) :
    ((ewmhSupported env ⟨false, false⟩).1 = true ↔
      (env.netSupportingWmCheckAtom ≠ 0 ∧ env.netSupportedAtom ≠ 0 ∧
        ∃ w, w ≠ 0 ∧ env.rootWindowProp = some w ∧ env.childWindowProp w = some w)) ∧
    (c.checked = true → ewmhSupported env2 c = (c.supported, c)) ∧
    (ewmhSupported env2 (ewmhSupported env ⟨false, false⟩).2).1 =
      (ewmhSupported env ⟨false, false⟩).1 := by
  refine ⟨?_, fun hc => ?_, ?_⟩
  · have h1 : (ewmhSupported env ⟨false, false⟩).1 = ewmhCompute env := by
      simp [ewmhSupported]
    rw [h1]
    exact ewmhCompute_iff env
  · simp [ewmhSupported, hc]
  · simp [ewmhSupported]

/-- Witness for C7: in an environment where the root property and the named
window's own property both name window 42, a fresh check reports support, and
a later call with a cache that has already checked `false` still reports
`false`. -/
theorem ewmhSupported_cachedCheck_witness :
    (ewmhSupported ⟨3, 4, some 42, fun w => some w⟩ ⟨false, false⟩).1 = true ∧
    ewmhSupported ⟨3, 4, some 42, fun w => some w⟩ ⟨true, false⟩ =
      (false, ⟨true, false⟩) := by
  constructor
  · exact (ewmhSupported_cachedCheck ⟨3, 4, some 42, fun w => some w⟩
      ⟨3, 4, some 42, fun w => some w⟩ ⟨false, false⟩).1.2
      ⟨by decide, by decide, 42, by decide, rfl, rfl⟩
  · exact (ewmhSupported_cachedCheck ⟨3, 4, some 42, fun w => some w⟩
      ⟨3, 4, some 42, fun w => some w⟩ ⟨true, false⟩).2.1 rfl

/-! ## Theorems for C8 and C10 -/

/-- C8: after initialization, `onGetData` reads at most one second of samples
(the buffer's worth) into the buffer, reports the number actually read in the
chunk, advances the file by that number, and returns `true` exactly when that
number is nonzero and the updated offset is still strictly below the total
sample count. -/
theorem onGetData_readsChunk (file : InputSoundFile) :
    (Music.onGetData ( Music.initialize file)).2.1.sampleCount =
      min (file.sampleRate * file.channelCount)
        (file.sampleCount - file.sampleOffset) ∧
    (Music.onGetData ( Music.initialize file)).2.1.sampleCount ≤
      file.sampleRate * file.channelCount ∧
    (Music.onGetData ( Music.initialize file)).2.1.samplesFromBuffer = true ∧
    (Music.onGetData ( Music.initialize file)).2.2.file.sampleOffset =
      file.sampleOffset + (Music.onGetData ( Music.initialize file)).2.1.sampleCount ∧
    ((Music.onGetData ( Music.initialize file)).1 = true ↔
      (Music.onGetData ( Music.initialize file)).2.1.sampleCount ≠ 0 ∧
        (Music.onGetData ( Music.initialize file)).2.2.file.sampleOffset <
          (Music.onGetData ( Music.initialize file)).2.2.file.sampleCount) := by
  refine ⟨rfl, ?_, rfl, rfl, ?_⟩
  · simp [Music.onGetData, Music.initialize, InputSoundFile.read]
  · simp [Music.onGetData, Music.initialize, InputSoundFile.read]

/-- The grab retry loop makes at most `fuel` attempts, succeeds exactly when
some attempt within the fuel succeeds, and uses all its fuel when every
attempt fails. -/
theorem grabPointerLoop_spec (results : Nat → Bool) (fuel trial : Nat) :
    (grabPointerLoop results trial fuel).1 ≤ fuel ∧
    ((grabPointerLoop results trial fuel).2 = true ↔
      ∃ i < fuel, results (trial + i) = true) ∧
    ((grabPointerLoop results trial fuel).2 = false →
      (grabPointerLoop results trial fuel).1 = fuel) := by
  induction fuel generalizing trial with
  | zero => simp [grabPointerLoop]
  | succ fuel ih =>
    by_cases hres : results trial = true
    · refine ⟨?_, ?_, ?_⟩ <;> simp [grabPointerLoop, hres]
      exact ⟨0, by omega, by simpa using hres⟩
    · have hres2 : results trial = false := by simpa using hres
      obtain ⟨ih1, ih2, ih3⟩ := ih (trial + 1)
      refine ⟨?_, ?_, ?_⟩
      · simp only [grabPointerLoop, hres2, Bool.false_eq_true, if_false]
        omega
      · simp only [grabPointerLoop, hres2, Bool.false_eq_true, if_false, ih2]
        constructor
        · rintro ⟨i, hi, hr⟩
          exact ⟨i + 1, by omega, by rw [show trial + (i + 1) = trial + 1 + i by omega]; exact hr⟩
        · rintro ⟨i, hi, hr⟩
          cases i with
          | zero => rw [Nat.add_zero] at hr; exact absurd hr hres
          | succ j =>
            exact ⟨j, by omega, by rw [show trial + 1 + j = trial + (j + 1) by omega]; exact hr⟩
      · simp only [grabPointerLoop, hres2, Bool.false_eq_true, if_false]
        intro hfail
        rw [ih3 hfail]

/-- C10: `setMouseCursorGrabbed` leaves everything unchanged in fullscreen
mode or when the requested state equals the current one; when grabbing from
an ungrabbed state it attempts at most `maxTrialsCount` (5) grabs, records
success exactly when one of the 5 attempts succeeds, and makes all 5
attempts (leaving the flag false) when every attempt fails; when releasing a
grabbed cursor it ungrabs and clears the flag. -/
theorem setMouseCursorGrabbed_frameEffect (results : Nat → Bool)
    (s : CursorGrabState) (grabbed : Bool) :
    ((s.fullscreen = true ∨ s.cursorGrabbed = grabbed) →
      setMouseCursorGrabbed results s grabbed = (s, .noEffect)) ∧
    (s.fullscreen = false → s.cursorGrabbed = false → grabbed = true →
      ∃ n, setMouseCursorGrabbed results s grabbed =
            ({ s with cursorGrabbed := (grabPointerLoop results 0 maxTrialsCount).2 },
              .grabAttempts n) ∧
          n ≤ maxTrialsCount ∧
          ((setMouseCursorGrabbed results s grabbed).1.cursorGrabbed = true ↔
            ∃ i < maxTrialsCount, results i = true) ∧
          ((setMouseCursorGrabbed results s grabbed).1.cursorGrabbed = false →
            n = maxTrialsCount)) ∧
    (s.fullscreen = false → s.cursorGrabbed = true → grabbed = false →
      setMouseCursorGrabbed results s grabbed =
        ({ s with cursorGrabbed := false }, .ungrab)) := by
  obtain ⟨h1, h2, h3⟩ := grabPointerLoop_spec results maxTrialsCount 0
  refine ⟨fun h => ?_, fun hf hc hg => ?_, fun hf hc hg => ?_⟩
  · rcases h with h | h
    · simp [setMouseCursorGrabbed, h]
    · simp [setMouseCursorGrabbed, h]
  · subst hg
    refine ⟨(grabPointerLoop results 0 maxTrialsCount).1, ?_, h1, ?_, ?_⟩
    · simp [setMouseCursorGrabbed, hf, hc]
    · simp only [setMouseCursorGrabbed, hf, hc, Bool.false_or, beq_iff_eq,
        Bool.false_eq_true, if_false, if_true]
      simpa using h2
    · simp only [setMouseCursorGrabbed, hf, hc, Bool.false_or, beq_iff_eq,
        Bool.false_eq_true, if_false, if_true]
      exact h3
  · subst hg
    simp [setMouseCursorGrabbed, hf, hc]

/-- Witness for C10: with every grab attempt failing, grabbing from an
ungrabbed non-fullscreen state makes 5 attempts and leaves the flag false;
a fullscreen state is untouched. -/
theorem setMouseCursorGrabbed_frameEffect_witness :
    setMouseCursorGrabbed (fun _ => false) ⟨false, false⟩ true =
      (⟨false, false⟩, .grabAttempts 5) ∧
    setMouseCursorGrabbed (fun _ => false) ⟨true, false⟩ true =
      (⟨true, false⟩, .noEffect) := by
  constructor
  · obtain ⟨n, heq, hle, hiff, hall⟩ :=
      ((setMouseCursorGrabbed_frameEffect (fun _ => false) ⟨false, false⟩ true).2.1)
        rfl rfl rfl
    have hflag : (grabPointerLoop (fun _ => false) 0 maxTrialsCount).2 = false := by
      simp [grabPointerLoop, maxTrialsCount]
    have hn : n = maxTrialsCount := by
      apply hall
      rw [heq]
      exact hflag
    rw [heq, hflag, hn]
    rfl
  · exact (setMouseCursorGrabbed_frameEffect (fun _ => false) ⟨true, false⟩ true).1
      (Or.inl rfl)

end SFML
